import Mathlib

/-!
Verification of the zebra label-printing service.

The source is a small Express service that receives a patient / lab-order
payload, groups the lab requests by destination sample container, composes one
ZPL label document per container and dispatches each to a thermal printer.
The definitions below embed the label-composition pipeline of `src/app.js`
(the ZD888/ZPL revision: `splitText`, `containers`, `uniqueContainers`,
`testsAccordingToContainer`, `createZPLBox`/`createZPLText`/`createZPLBarcode`,
the body of `usePrinter`, and the `app.post("/")` handler).
-/

namespace Zebra

/-- JavaScript primitive values as they appear in the label payloads: absent
fields (`undefined`), explicit `null`, numbers and strings.  The model
restricts JS numbers to integers, which covers the identifiers and visit
numbers the service handles. -/
inductive JSVal where
  | undef
  | null
  | num (n : Int)
  | str (s : String)
deriving DecidableEq

/-- JavaScript truthiness for the modelled values: `undefined`, `null`, `0`
and the empty string are falsy, everything else is truthy. -/
def JSVal.truthy : JSVal → Bool
  | .undef => false
  | .null => false
  | .num n => !(n == 0)
  | .str s => !(s == "")

/-- JavaScript strict equality `===` restricted to the modelled values. -/
def JSVal.seq : JSVal → JSVal → Bool
  | .undef, .undef => true
  | .null, .null => true
  | .num a, .num b => a == b
  | .str a, .str b => a == b
  | _, _ => false

/-- The JavaScript `a || b` short circuit used throughout the source for alias
resolution: the first operand when truthy, otherwise the second. -/
def jsOr (a b : JSVal) : JSVal := if a.truthy then a else b

/-- JavaScript `String(v)` on the modelled values. -/
def jsToString : JSVal → String
  | .undef => ("undefined")
  | .null => ("null")
  | .num n => toString n
  | .str s => s

theorem seq_refl (v : JSVal) : JSVal.seq v v = true := by
  cases v <;> simp [JSVal.seq]

theorem seq_symm {a b : JSVal} (h : JSVal.seq a b = true) : JSVal.seq b a = true := by
  cases a <;> cases b <;> simp_all [JSVal.seq]

theorem seq_trans {a b c : JSVal} (h1 : JSVal.seq a b = true)
    (h2 : JSVal.seq b c = true) : JSVal.seq a c = true := by
  cases a <;> cases b <;> cases c <;> simp_all [JSVal.seq]

theorem seq_truthy {a b : JSVal} (h : JSVal.seq a b = true) :
    a.truthy = b.truthy := by
  cases a <;> cases b <;> simp_all [JSVal.seq, JSVal.truthy]

/-- Iterations of the `splitText` loop, bounded by an explicit fuel.
Each iteration of `for (let i = 0; i < text.length; i += maxLength)` pushes
`text.substring(i, i + maxLength)` — the next `maxLength` characters — and
advances past them.  When `maxLength ≥ 1` every iteration consumes at least
one character, so `text.length` iterations always suffice; when
`maxLength = 0` the JavaScript loop never terminates (no claim concerns that
case, all of them assume a positive width). -/
def splitTextGo : Nat → List Char → Nat → List (List Char)
  | _, [], _ => []
  | 0, _ :: _, _ => []
  | fuel + 1, ch :: rest, maxLength =>
      (ch :: rest).take maxLength :: splitTextGo fuel ((ch :: rest).drop maxLength) maxLength

/-- `splitText(text, maxLength)` from `src/app.js`: chop `text` into
consecutive `maxLength`-character chunks.  An empty `text` makes the loop body
never run, so the result is the empty array. -/
def splitText (text : String) (maxLength : Nat) : List String :=
  (splitTextGo text.data.length text.data maxLength).map String.mk

/-- Concatenation of a list of strings in order, without separators. -/
def joinAll : List String → String
  | [] => ("")
  | s :: rest => s ++ joinAll rest

theorem splitTextGo_join (fuel : Nat) : ∀ (l : List Char) (m : Nat),
    l.length ≤ fuel → 0 < m → (splitTextGo fuel l m).flatten = l := by
  induction fuel with
  | zero =>
    intro l m hl _
    cases l with
    | nil => simp [splitTextGo]
    | cons ch rest => simp at hl
  | succ f ih =>
    intro l m hl hm
    cases l with
    | nil => simp [splitTextGo]
    | cons ch rest =>
      simp only [splitTextGo, List.flatten_cons]
      rw [ih ((ch :: rest).drop m) m]
      · exact List.take_append_drop m (ch :: rest)
      · rw [List.length_drop]
        simp only [List.length_cons] at hl ⊢
        omega
      · exact hm

theorem splitTextGo_chunk_le (fuel : Nat) : ∀ (l : List Char) (m : Nat),
    ∀ chunk ∈ splitTextGo fuel l m, chunk.length ≤ m := by
  induction fuel with
  | zero =>
    intro l m chunk hc
    cases l with
    | nil => simp [splitTextGo] at hc
    | cons ch rest => simp [splitTextGo] at hc
  | succ f ih =>
    intro l m chunk hc
    cases l with
    | nil => simp [splitTextGo] at hc
    | cons ch rest =>
      simp only [splitTextGo, List.mem_cons] at hc
      rcases hc with hc | hc
      · subst hc
        simpa using List.length_take_le m (ch :: rest)
      · exact ih _ m chunk hc

theorem splitTextGo_count (fuel : Nat) : ∀ (l : List Char) (m : Nat),
    l.length ≤ fuel → 0 < m → l ≠ [] →
    (splitTextGo fuel l m).length = (l.length - 1) / m + 1 := by
  induction fuel with
  | zero =>
    intro l m hl _ hne
    cases l with
    | nil => exact absurd rfl hne
    | cons ch rest => simp at hl
  | succ f ih =>
    intro l m hl hm hne
    cases l with
    | nil => exact absurd rfl hne
    | cons ch rest =>
      simp only [splitTextGo, List.length_cons]
      by_cases hshort : rest.length + 1 ≤ m
      · have hdrop : (ch :: rest).drop m = [] := by
          apply List.drop_eq_nil_of_le
          simpa using hshort
        rw [hdrop]
        have hz : rest.length / m = 0 := by
          apply Nat.div_eq_of_lt
          omega
        simp [splitTextGo, hz]
      · push_neg at hshort
        have hdl : ((ch :: rest).drop m).length = rest.length + 1 - m := by
          rw [List.length_drop]; simp
        have hdne : (ch :: rest).drop m ≠ [] := by
          intro hcontra
          rw [hcontra] at hdl
          simp at hdl
          omega
        rw [ih ((ch :: rest).drop m) m (by rw [hdl]; simp only [List.length_cons] at hl; omega) hm hdne]
        rw [hdl]
        have heq : rest.length + 1 - 1 = (rest.length + 1 - m - 1) + m := by omega
        rw [heq, Nat.add_div_right _ hm]

theorem joinAll_map_mk (chunks : List (List Char)) :
    joinAll (chunks.map String.mk) = String.mk chunks.flatten := by
  induction chunks with
  | nil => rfl
  | cons c rest ih =>
    simp only [List.map_cons, joinAll, List.flatten_cons, ih]
    rfl

/-- Spec claim C1: for every string and every positive width, `splitText`
returns chunks each of length at most the width, whose in-order concatenation
reconstructs the input exactly, and — when the input is non-empty — there are
exactly `ceil(length / width)` chunks. -/
theorem splitText_spec (text : String) (maxWidth : Nat) (h : 0 < maxWidth) :
    (∀ s ∈ splitText text maxWidth, s.length ≤ maxWidth)
    ∧ joinAll (splitText text maxWidth) = text
    ∧ (text ≠ ("") → (splitText text maxWidth).length = (text.length + maxWidth - 1) / maxWidth) := by
  refine ⟨?_, ?_, ?_⟩
  · intro s hs
    simp only [splitText, List.mem_map] at hs
    obtain ⟨chunk, hmem, hmk⟩ := hs
    have := splitTextGo_chunk_le text.data.length text.data maxWidth chunk hmem
    subst hmk
    simpa [String.length] using this
  · rw [splitText, joinAll_map_mk,
      splitTextGo_join text.data.length text.data maxWidth (Nat.le_refl _) h]
  · intro hne
    have hdne : text.data ≠ [] := by
      intro hcontra
      apply hne
      have hmk : text = String.mk text.data := rfl
      rw [hmk, hcontra]
    have hpos : 1 ≤ text.data.length := by
      cases hd : text.data with
      | nil => exact absurd hd hdne
      | cons a l => simp [hd]
    rw [splitText, List.length_map,
      splitTextGo_count text.data.length text.data maxWidth (Nat.le_refl _) h hdne]
    have hlen : text.length = text.data.length := rfl
    have heq : text.length + maxWidth - 1 = (text.data.length - 1) + maxWidth := by omega
    rw [heq, Nat.add_div_right _ h]

/-- Witness for `splitText_spec` at the concrete input `"abcdefg"`, width 3. -/
theorem splitText_spec_witness :
    0 < 3 ∧
    ((∀ s ∈ splitText ("abcdefg") 3, s.length ≤ 3)
      ∧ joinAll (splitText ("abcdefg") 3) = ("abcdefg")
      ∧ ((("abcdefg") : String) ≠ ("") →
          (splitText ("abcdefg") 3).length = (String.length ("abcdefg") + 3 - 1) / 3)) :=
  ⟨by decide, splitText_spec ("abcdefg") 3 (by decide)⟩

/-- Counterexample to claim C2: `splitText "" 5` is the empty array — the
loop body never runs on a zero-length input — so it does not have exactly one
element, let alone a single empty-string element. -/
theorem splitText_empty_counterexample :
    splitText ("") 5 = [] ∧ (splitText ("") 5).length ≠ 1 := by
  constructor
  · rfl
  · decide

/-- Amended claim C2: for every positive `maxWidth`, `splitText` applied to
the empty string returns the empty sequence (zero elements). -/
theorem splitText_empty (maxWidth : Nat) (h : 0 < maxWidth) :
    splitText ("") maxWidth = [] := rfl

/-- Witness for `splitText_empty` at width 5. -/
theorem splitText_empty_witness :
    0 < 5 ∧ splitText ("") 5 = [] :=
  ⟨by decide, splitText_empty 5 (by decide)⟩

/-- A sample container as `usePrinter` reads it: `container.id` for grouping,
`container.container_name` and `container.name` as the display-name aliases. -/
structure Container where
  id : JSVal
  container_name : JSVal
  name : JSVal
deriving DecidableEq

/-- A main-test record as read by the source: its `container`, and the
`main_test_name` / `name` aliases for the test's display name. -/
structure MainTest where
  container : Option Container
  main_test_name : JSVal
  name : JSVal
deriving DecidableEq

/-- One lab request from the payload: `main_test` / `mainTest` aliases for the
test record, and `name` / `test_name` aliases for the test name. -/
structure LabRequest where
  main_test : Option MainTest
  mainTest : Option MainTest
  name : JSVal
  test_name : JSVal
deriving DecidableEq

/-- `const mainTest = req.main_test || req.mainTest` (objects are truthy). -/
def resolveMainTest (req : LabRequest) : Option MainTest :=
  match req.main_test with
  | some mt => some mt
  | none => req.mainTest

/-- The container a request resolves, as in the `containers` map step:
`if (mainTest && mainTest.container) return mainTest.container; return null`. -/
def resolveContainer (req : LabRequest) : Option Container :=
  match resolveMainTest req with
  | some mt => mt.container
  | none => none

/-- The `containers` constant of `usePrinter`: map each request to its
resolved container (or null), then
`.filter(container => container !== null && container.id)` — the non-null
results whose id is truthy. -/
def containers (labRequests : List LabRequest) : List Container :=
  (labRequests.filterMap resolveContainer).filter (fun container => container.id.truthy)

/-- `Array.prototype.filter` with the `(element, index)` callback shape, used
by the `uniqueContainers` deduplication. -/
def filterWithIndex (p : Nat → Container → Bool) : Nat → List Container → List Container
  | _, [] => []
  | i, c :: rest =>
    if p i c then c :: filterWithIndex p (i + 1) rest else filterWithIndex p (i + 1) rest

/-- The `uniqueContainers` constant:
`containers.filter((container, index, self) => index === self.findIndex(c => c.id === container.id))`
— keep an element exactly when its index is the first index holding its id. -/
def uniqueContainers (self : List Container) : List Container :=
  filterWithIndex
    (fun index container => (self.findIdx (fun d => JSVal.seq d.id container.id)) == index)
    0 self

/-- The filter predicate of `testsAccordingToContainer`:
`mainTest && mainTest.container && mainTest.container.id === container.id`. -/
def matchesContainer (container : Container) (req : LabRequest) : Bool :=
  match resolveMainTest req with
  | some mt =>
    match mt.container with
    | some c => JSVal.seq c.id container.id
    | none => false
  | none => false

/-- `mainTest?.f` optional chaining: `undefined` when the receiver is null. -/
def optField (mt : Option MainTest) (f : MainTest → JSVal) : JSVal :=
  match mt with
  | some m => f m
  | none => JSVal.undef

/-- The map step of `testsAccordingToContainer`:
`mainTest?.main_test_name || mainTest?.name || req.name || req.test_name || 'Unknown Test'`. -/
def testNameOf (req : LabRequest) : JSVal :=
  jsOr (optField (resolveMainTest req) MainTest.main_test_name)
    (jsOr (optField (resolveMainTest req) MainTest.name)
      (jsOr req.name (jsOr req.test_name (JSVal.str ("Unknown Test")))))

/-- The `testsAccordingToContainer` constant: the names of the requests whose
resolved container id strictly equals the group container's id, in request
order. -/
def testsAccordingToContainer (labRequests : List LabRequest) (container : Container) : List JSVal :=
  (labRequests.filter (matchesContainer container)).map testNameOf

/-- Recursive characterisation of keep-first-occurrence deduplication:
`seen` holds the ids already emitted. Used only to reason about
`uniqueContainers`. -/
def dedupFrom (seen : List JSVal) : List Container → List Container
  | [] => []
  | c :: rest =>
    if seen.any (fun v => JSVal.seq v c.id) then dedupFrom seen rest
    else c :: dedupFrom (seen ++ [c.id]) rest

theorem findIdx_append_of_forall {q : Container → Bool} :
    ∀ (front l : List Container), (∀ d ∈ front, q d = false) →
    (front ++ l).findIdx q = front.length + l.findIdx q := by
  intro front
  induction front with
  | nil => intro l _; simp
  | cons a rest ih =>
    intro l h
    have ha : q a = false := h a (by simp)
    simp only [List.cons_append, List.findIdx_cons, ha, cond_false, List.length_cons]
    rw [ih l (fun d hd => h d (by simp [hd]))]
    omega

theorem findIdx_lt_of_mem {q : Container → Bool} :
    ∀ (front l : List Container) (d : Container), d ∈ front → q d = true →
    (front ++ l).findIdx q < front.length := by
  intro front
  induction front with
  | nil => intro l d hd _; simp at hd
  | cons a rest ih =>
    intro l d hd hq
    simp only [List.cons_append, List.findIdx_cons, List.length_cons]
    cases hqa : q a with
    | true => simp
    | false =>
      simp only [cond_false]
      have hdr : d ∈ rest := by
        rcases List.mem_cons.mp hd with h1 | h1
        · subst h1; rw [hqa] at hq; exact absurd hq (by simp)
        · exact h1
      have := ih l d hdr hq
      omega

theorem dedupFrom_congr :
    ∀ (l : List Container) (s1 s2 : List JSVal),
    (∀ x, s1.any (fun v => JSVal.seq v x) = s2.any (fun v => JSVal.seq v x)) →
    dedupFrom s1 l = dedupFrom s2 l := by
  intro l
  induction l with
  | nil => intro s1 s2 _; rfl
  | cons c rest ih =>
    intro s1 s2 h
    simp only [dedupFrom, h c.id]
    by_cases hs : s2.any (fun v => JSVal.seq v c.id) = true
    · rw [if_pos hs, if_pos hs]
      exact ih s1 s2 h
    · rw [if_neg hs, if_neg hs]
      rw [ih (s1 ++ [c.id]) (s2 ++ [c.id])]
      intro x
      simp only [List.any_append, h x]

theorem dedupFrom_dup (l : List Container) (seen : List JSVal) (a : JSVal)
    (h : seen.any (fun v => JSVal.seq v a) = true) :
    dedupFrom (seen ++ [a]) l = dedupFrom seen l := by
  apply dedupFrom_congr
  intro x
  simp only [List.any_append, List.any_cons, List.any_nil, Bool.or_false]
  cases hax : JSVal.seq a x with
  | false => simp
  | true =>
    have hone : seen.any (fun v => JSVal.seq v x) = true := by
      rw [List.any_eq_true] at h ⊢
      obtain ⟨v, hv, hva⟩ := h
      exact ⟨v, hv, seq_trans hva hax⟩
    simp [hone]

theorem filterWithIndex_eq_dedupFrom :
    ∀ (l front : List Container),
    filterWithIndex
      (fun index container =>
        ((front ++ l).findIdx (fun d => JSVal.seq d.id container.id)) == index)
      front.length l
      = dedupFrom (front.map Container.id) l := by
  intro l
  induction l with
  | nil => intro front; rfl
  | cons c rest ih =>
    intro front
    have hsplit : front ++ c :: rest = (front ++ [c]) ++ rest := by simp
    by_cases hdup : ∃ d ∈ front, JSVal.seq d.id c.id = true
    · obtain ⟨d, hdmem, hdseq⟩ := hdup
      have hlt : (front ++ c :: rest).findIdx (fun x => JSVal.seq x.id c.id) < front.length :=
        findIdx_lt_of_mem front (c :: rest) d hdmem hdseq
      have hpred :
          (((front ++ c :: rest).findIdx (fun x => JSVal.seq x.id c.id)) == front.length) = false := by
        simp only [beq_eq_false_iff_ne, ne_eq]
        omega
      rw [filterWithIndex, hpred, if_neg (by simp)]
      have hlen : front.length + 1 = (front ++ [c]).length := by simp
      rw [hsplit, hlen, ih (front ++ [c])]
      have hany : (front.map Container.id).any (fun v => JSVal.seq v c.id) = true := by
        rw [List.any_eq_true]
        exact ⟨d.id, List.mem_map_of_mem Container.id hdmem, hdseq⟩
      rw [List.map_append, List.map_cons, List.map_nil, dedupFrom_dup _ _ _ hany]
      rw [dedupFrom, if_pos hany]
    · push_neg at hdup
      have hforall : ∀ d ∈ front, (fun x => JSVal.seq x.id c.id) d = false := by
        intro d hd
        have := hdup d hd
        simpa using this
      have hfind : (front ++ c :: rest).findIdx (fun x => JSVal.seq x.id c.id) = front.length := by
        rw [findIdx_append_of_forall front (c :: rest) hforall]
        simp [List.findIdx_cons, seq_refl]
      have hpred :
          (((front ++ c :: rest).findIdx (fun x => JSVal.seq x.id c.id)) == front.length) = true := by
        simp [hfind]
      rw [filterWithIndex, hpred, if_pos rfl]
      have hlen : front.length + 1 = (front ++ [c]).length := by simp
      rw [hsplit, hlen, ih (front ++ [c])]
      have hany : (front.map Container.id).any (fun v => JSVal.seq v c.id) = false := by
        rw [List.any_eq_false]
        intro v hv
        rw [List.mem_map] at hv
        obtain ⟨d, hd, hdv⟩ := hv
        subst hdv
        simpa using hdup d hd
      rw [List.map_append, List.map_cons, List.map_nil]
      rw [dedupFrom, if_neg (by simp [hany])]

theorem uniqueContainers_eq_dedup (self : List Container) :
    uniqueContainers self = dedupFrom [] self := by
  have h := filterWithIndex_eq_dedupFrom self []
  simpa [uniqueContainers] using h

theorem dedupFrom_not_seen :
    ∀ (l : List Container) (seen : List JSVal) (x : Container),
    x ∈ dedupFrom seen l → seen.any (fun v => JSVal.seq v x.id) = false := by
  intro l
  induction l with
  | nil => intro seen x hx; simp [dedupFrom] at hx
  | cons c rest ih =>
    intro seen x hx
    rw [dedupFrom] at hx
    by_cases h : seen.any (fun v => JSVal.seq v c.id) = true
    · rw [if_pos h] at hx
      exact ih seen x hx
    · rw [if_neg h] at hx
      rcases List.mem_cons.mp hx with h1 | h1
      · subst h1
        simpa using h
      · have := ih (seen ++ [c.id]) x h1
        rw [List.any_append] at this
        exact (Bool.or_eq_false_iff.mp this).1

theorem dedupFrom_sublist :
    ∀ (l : List Container) (seen : List JSVal), (dedupFrom seen l).Sublist l := by
  intro l
  induction l with
  | nil => intro seen; simp [dedupFrom]
  | cons c rest ih =>
    intro seen
    rw [dedupFrom]
    by_cases h : seen.any (fun v => JSVal.seq v c.id) = true
    · rw [if_pos h]
      exact (ih seen).cons c
    · rw [if_neg h]
      exact (ih (seen ++ [c.id])).cons₂ c

theorem dedupFrom_pairwise :
    ∀ (l : List Container) (seen : List JSVal),
    (dedupFrom seen l).Pairwise (fun a b => JSVal.seq a.id b.id = false) := by
  intro l
  induction l with
  | nil => intro seen; simp [dedupFrom]
  | cons c rest ih =>
    intro seen
    rw [dedupFrom]
    by_cases h : seen.any (fun v => JSVal.seq v c.id) = true
    · rw [if_pos h]; exact ih seen
    · rw [if_neg h]
      refine List.Pairwise.cons ?_ (ih (seen ++ [c.id]))
      intro x hx
      have := dedupFrom_not_seen rest (seen ++ [c.id]) x hx
      rw [List.any_append] at this
      have h2 := (Bool.or_eq_false_iff.mp this).2
      simpa using h2

theorem dedupFrom_find :
    ∀ (l : List Container) (seen : List JSVal) (x : Container),
    x ∈ dedupFrom seen l → l.find? (fun d => JSVal.seq d.id x.id) = some x := by
  intro l
  induction l with
  | nil => intro seen x hx; simp [dedupFrom] at hx
  | cons c rest ih =>
    intro seen x hx
    rw [dedupFrom] at hx
    by_cases h : seen.any (fun v => JSVal.seq v c.id) = true
    · rw [if_pos h] at hx
      have hnx := dedupFrom_not_seen rest seen x hx
      have hcx : JSVal.seq c.id x.id = false := by
        cases hcx : JSVal.seq c.id x.id with
        | false => rfl
        | true =>
          rw [List.any_eq_true] at h
          obtain ⟨v, hv, hvc⟩ := h
          have : seen.any (fun v => JSVal.seq v x.id) = true := by
            rw [List.any_eq_true]
            exact ⟨v, hv, seq_trans hvc hcx⟩
          rw [this] at hnx
          exact absurd hnx (by simp)
      rw [List.find?_cons, hcx]
      exact ih seen x hx
    · rw [if_neg h] at hx
      rcases List.mem_cons.mp hx with h1 | h1
      · subst h1
        rw [List.find?_cons, seq_refl]
      · have hnx := dedupFrom_not_seen rest (seen ++ [c.id]) x h1
        rw [List.any_append] at hnx
        have h2 := (Bool.or_eq_false_iff.mp hnx).2
        have hcx : JSVal.seq c.id x.id = false := by simpa using h2
        rw [List.find?_cons, hcx]
        exact ih (seen ++ [c.id]) x h1

theorem dedupFrom_cover :
    ∀ (l : List Container) (seen : List JSVal) (d : Container), d ∈ l →
    seen.any (fun v => JSVal.seq v d.id) = false →
    ∃ x ∈ dedupFrom seen l, JSVal.seq x.id d.id = true := by
  intro l
  induction l with
  | nil => intro seen d hd _; simp at hd
  | cons c rest ih =>
    intro seen d hd hseen
    rw [dedupFrom]
    by_cases h : seen.any (fun v => JSVal.seq v c.id) = true
    · rw [if_pos h]
      rcases List.mem_cons.mp hd with h1 | h1
      · subst h1
        rw [hseen] at h
        exact absurd h (by simp)
      · exact ih seen d h1 hseen
    · rw [if_neg h]
      rcases List.mem_cons.mp hd with h1 | h1
      · subst h1
        exact ⟨d, by simp, seq_refl d.id⟩
      · by_cases hcd : JSVal.seq c.id d.id = true
        · exact ⟨c, by simp, hcd⟩
        · have hseen2 : (seen ++ [c.id]).any (fun v => JSVal.seq v d.id) = false := by
            rw [List.any_append, hseen]
            simp only [List.any_cons, List.any_nil, Bool.false_or, Bool.or_false]
            simpa using hcd
          obtain ⟨x, hx, hxd⟩ := ih (seen ++ [c.id]) d h1 hseen2
          exact ⟨x, by simp [hx], hxd⟩

theorem find_congr {α : Type} (l : List α) (p q : α → Bool) (h : ∀ a, p a = q a) :
    l.find? p = l.find? q := by
  have hpq : p = q := funext h
  rw [hpq]

theorem matchesContainer_eq (g : Container) (req : LabRequest) :
    matchesContainer g req
      = (match resolveContainer req with
         | some c => JSVal.seq c.id g.id
         | none => false) := by
  rw [matchesContainer, resolveContainer]
  cases resolveMainTest req with
  | none => rfl
  | some mt => rfl

theorem seq_congr_left {c d : JSVal} (h : JSVal.seq c d = true) (a : JSVal) :
    JSVal.seq a d = JSVal.seq a c := by
  cases h1 : JSVal.seq a c with
  | true => exact seq_trans h1 h
  | false =>
    cases h2 : JSVal.seq a d with
    | false => rfl
    | true =>
      have := seq_trans h2 (seq_symm h)
      rw [this] at h1
      exact h1

/-- Spec claim C3: the deduplicated container sequence has pairwise distinct
ids, is a subsequence of the extracted container sequence (first-occurrence
order), each retained element is literally the first extracted container
carrying its id (hence the group keeps the first-encountered display name),
and every extracted container is represented by exactly that first
occurrence. -/
theorem uniqueContainers_spec (reqs : List LabRequest) :
    (uniqueContainers (containers reqs)).Pairwise (fun a b => JSVal.seq a.id b.id = false)
    ∧ (uniqueContainers (containers reqs)).Sublist (containers reqs)
    ∧ (∀ c ∈ uniqueContainers (containers reqs),
        (containers reqs).find? (fun d => JSVal.seq d.id c.id) = some c)
    ∧ (∀ d ∈ containers reqs,
        ∃ c ∈ uniqueContainers (containers reqs),
          JSVal.seq c.id d.id = true
          ∧ (containers reqs).find? (fun y => JSVal.seq y.id d.id) = some c) := by
  rw [uniqueContainers_eq_dedup]
  refine ⟨dedupFrom_pairwise _ _, dedupFrom_sublist _ _, ?_, ?_⟩
  · intro c hc
    exact dedupFrom_find _ _ c hc
  · intro d hd
    obtain ⟨c, hc, hcd⟩ := dedupFrom_cover (containers reqs) [] d hd (by simp)
    refine ⟨c, hc, hcd, ?_⟩
    rw [find_congr (containers reqs)
      (fun y => JSVal.seq y.id d.id) (fun y => JSVal.seq y.id c.id)
      (fun y => seq_congr_left hcd y.id)]
    exact dedupFrom_find _ _ c hc

/-- Spec claim C4: every group container retained by the pipeline has a truthy
(hence non-null) id, collects at least one test name, and its test-name list
is the image of a subsequence of the request list taken in request order. -/
theorem containerGroup_invariants (reqs : List LabRequest) (g : Container)
    (hg : g ∈ uniqueContainers (containers reqs)) :
    g.id.truthy = true
    ∧ testsAccordingToContainer reqs g ≠ []
    ∧ ∃ sub : List LabRequest, sub.Sublist reqs
        ∧ testsAccordingToContainer reqs g = sub.map testNameOf := by
  have hmem : g ∈ containers reqs := by
    rw [uniqueContainers_eq_dedup] at hg
    exact (dedupFrom_sublist _ _).subset hg
  rw [containers] at hmem
  have hm2 := List.mem_filter.mp hmem
  have htruthy : g.id.truthy = true := by simpa using hm2.2
  obtain ⟨r, hr, hres⟩ := List.mem_filterMap.mp hm2.1
  have hmatch : matchesContainer g r = true := by
    rw [matchesContainer_eq, hres]
    exact seq_refl g.id
  have hfmem : r ∈ reqs.filter (matchesContainer g) := List.mem_filter.mpr ⟨hr, hmatch⟩
  refine ⟨htruthy, ?_, reqs.filter (matchesContainer g), List.filter_sublist reqs, rfl⟩
  rw [testsAccordingToContainer]
  intro hnil
  have := List.mem_map_of_mem testNameOf hfmem
  rw [hnil] at this
  simp at this

/-- Replace the request's resolved container by an absent one, keeping every
other field. -/
def dropContainer (r : LabRequest) : LabRequest :=
  match r.main_test with
  | some mt => { r with main_test := some { mt with container := none } }
  | none =>
    match r.mainTest with
    | some mt => { r with mainTest := some { mt with container := none } }
    | none => r

theorem resolveContainer_dropContainer (r : LabRequest) :
    resolveContainer (dropContainer r) = none := by
  rw [dropContainer]
  cases h1 : r.main_test with
  | some mt => simp [resolveContainer, resolveMainTest]
  | none =>
    cases h2 : r.mainTest with
    | some mt => simp [resolveContainer, resolveMainTest, h1]
    | none => simp [resolveContainer, resolveMainTest, h1, h2]

/-- Implicit claim C10: a request whose resolved container carries a falsy id
(0, the empty string, null) is excluded from grouping exactly as if it had no
container at all: the extracted container sequence, the deduplicated
sequence, and every truthy-id group's test-name list are unchanged when the
request's container is removed; and the falsy-id container itself never
appears among the extracted containers. -/
theorem falsyContainerId_excluded (l1 l2 : List LabRequest) (r : LabRequest) (c : Container)
    (hres : resolveContainer r = some c) (hfalsy : c.id.truthy = false) :
    containers (l1 ++ r :: l2) = containers (l1 ++ dropContainer r :: l2)
    ∧ uniqueContainers (containers (l1 ++ r :: l2))
        = uniqueContainers (containers (l1 ++ dropContainer r :: l2))
    ∧ (∀ g : Container, g.id.truthy = true →
        testsAccordingToContainer (l1 ++ r :: l2) g
          = testsAccordingToContainer (l1 ++ dropContainer r :: l2) g)
    ∧ c ∉ containers (l1 ++ r :: l2) := by
  have hcont : containers (l1 ++ r :: l2) = containers (l1 ++ dropContainer r :: l2) := by
    rw [containers, containers, List.filterMap_append, List.filterMap_append,
      List.filterMap_cons, List.filterMap_cons, hres, resolveContainer_dropContainer]
    simp [List.filter_append, List.filter_cons, hfalsy]
  have htests : ∀ g : Container, g.id.truthy = true →
      testsAccordingToContainer (l1 ++ r :: l2) g
        = testsAccordingToContainer (l1 ++ dropContainer r :: l2) g := by
    intro g hg
    have h1 : matchesContainer g r = false := by
      rw [matchesContainer_eq, hres]
      cases hseq : JSVal.seq c.id g.id with
      | false => exact hseq
      | true =>
        rw [seq_truthy hseq, hg] at hfalsy
        exact absurd hfalsy (by simp)
    have h2 : matchesContainer g (dropContainer r) = false := by
      rw [matchesContainer_eq, resolveContainer_dropContainer]
    rw [testsAccordingToContainer, testsAccordingToContainer]
    congr 1
    simp [List.filter_append, List.filter_cons, h1, h2]
  have hnot : c ∉ containers (l1 ++ r :: l2) := by
    intro hmem
    have := (List.mem_filter.mp hmem).2
    rw [hfalsy] at this
    exact absurd this (by simp)
  exact ⟨hcont, by rw [hcont], htests, hnot⟩

/-- Sample container: truthy numeric id 7 and a display name. -/
def containerCBC : Container :=
  { id := JSVal.num 7, container_name := JSVal.str ("EDTA Tube"), name := JSVal.undef }

/-- A second container object with the same id 7 but a different display
name, as sent by a different historical caller. -/
def containerDup : Container :=
  { id := JSVal.num 7, container_name := JSVal.str ("Purple Top"), name := JSVal.undef }

/-- A container whose id is the falsy number 0. -/
def containerZero : Container :=
  { id := JSVal.num 0, container_name := JSVal.str ("Broken"), name := JSVal.undef }

def mtCBC : MainTest :=
  { container := some containerCBC, main_test_name := JSVal.str ("CBC"), name := JSVal.undef }

def mtHBA1C : MainTest :=
  { container := some containerDup, main_test_name := JSVal.str ("HbA1c"), name := JSVal.undef }

def mtZeroId : MainTest :=
  { container := some containerZero, main_test_name := JSVal.str ("Lipase"), name := JSVal.undef }

def reqCBC : LabRequest :=
  { main_test := some mtCBC, mainTest := none, name := JSVal.undef, test_name := JSVal.undef }

def reqHBA1C : LabRequest :=
  { main_test := some mtHBA1C, mainTest := none, name := JSVal.undef, test_name := JSVal.undef }

/-- A request resolving a container with the falsy id 0. -/
def reqZeroId : LabRequest :=
  { main_test := some mtZeroId, mainTest := none, name := JSVal.undef, test_name := JSVal.undef }

/-- Witness for `uniqueContainers_spec` on two requests sharing container
id 7: the first-encountered container object is the one retained. -/
theorem uniqueContainers_spec_witness :
    containerCBC ∈ uniqueContainers (containers [reqCBC, reqHBA1C])
    ∧ (containers [reqCBC, reqHBA1C]).find?
        (fun d => JSVal.seq d.id containerCBC.id) = some containerCBC :=
  ⟨by decide, (uniqueContainers_spec [reqCBC, reqHBA1C]).2.2.1 containerCBC (by decide)⟩

/-- Witness for `containerGroup_invariants` on the sample two-request
payload. -/
theorem containerGroup_invariants_witness :
    containerCBC ∈ uniqueContainers (containers [reqCBC, reqHBA1C])
    ∧ (containerCBC.id.truthy = true
       ∧ testsAccordingToContainer [reqCBC, reqHBA1C] containerCBC ≠ []
       ∧ ∃ sub : List LabRequest, sub.Sublist [reqCBC, reqHBA1C]
           ∧ testsAccordingToContainer [reqCBC, reqHBA1C] containerCBC = sub.map testNameOf) :=
  ⟨by decide, containerGroup_invariants [reqCBC, reqHBA1C] containerCBC (by decide)⟩

/-- Witness for `falsyContainerId_excluded` at the id-0 sample request. -/
theorem falsyContainerId_excluded_witness :
    (resolveContainer reqZeroId = some containerZero ∧ containerZero.id.truthy = false)
    ∧ (containers ([reqCBC] ++ reqZeroId :: [])
          = containers ([reqCBC] ++ dropContainer reqZeroId :: [])
       ∧ uniqueContainers (containers ([reqCBC] ++ reqZeroId :: []))
          = uniqueContainers (containers ([reqCBC] ++ dropContainer reqZeroId :: []))
       ∧ (∀ g : Container, g.id.truthy = true →
            testsAccordingToContainer ([reqCBC] ++ reqZeroId :: []) g
              = testsAccordingToContainer ([reqCBC] ++ dropContainer reqZeroId :: []) g)
       ∧ containerZero ∉ containers ([reqCBC] ++ reqZeroId :: [])) :=
  ⟨⟨rfl, by decide⟩,
    falsyContainerId_excluded [reqCBC] [] reqZeroId containerZero rfl (by decide)⟩

/-- One drawing primitive of a composed label document (the `^GB` box, an
`^A0` text field, or a `^BC` Code-128 barcode). -/
inductive Primitive where
  | box (x y width height thickness : Nat)
  | text (x y : Nat) (content : String) (fontHeight fontWidth : Nat) (rotation : String)
  | barcode (x y height : Nat) (data : String) (interpretationLine : String)
deriving DecidableEq

/-- The whitespace stripped by `String.prototype.trim` (its ASCII portion,
which covers the test-name strings the service builds). -/
def isJSSpace (c : Char) : Bool :=
  c = ' ' || c = '\t' || c = '\n' || c = '\r'

/-- `line.trim()`. -/
def jsTrim (s : String) : String :=
  String.mk (((s.data.dropWhile isJSSpace).reverse.dropWhile isJSSpace).reverse)

/-- Per-character expansion of the escapes applied inside `createZPLText`:
`text.replace(/\\/g, "\\\\").replace(/\^/g, "\\^").replace(/~/g, "\\~")`.
The three sequential global replaces equal one character-wise pass over the
original text because the backslash pass runs first and the backslashes
inserted by the caret and tilde passes are never re-examined. -/
def escChar (c : Char) : List Char :=
  if c = '\\' then ['\\', '\\']
  else if c = '^' then ['\\', '^']
  else if c = '~' then ['\\', '~']
  else [c]

def escapeZPLText (s : String) : String :=
  String.mk (s.data.map escChar).flatten

/-- `createZPLBox(x, y, width, height, lineThickness)`: emits
`^FO{x},{y}^GB{width},{height},{thickness},B,0^FS` (braces denoting the
interpolated arguments). -/
def createZPLBox (x y width height lineThickness : Nat) : Primitive :=
  Primitive.box x y width height lineThickness

/-- `createZPLText(x, y, text, fontHeight, fontWidth, rotation)`: emits
`^FO{x},{y}^A0{rotation},{fontHeight},{fontWidth}^FD{escapedText}^FS`.
`text.replace` presumes a string receiver: a truthy numeric argument would
raise a TypeError in JavaScript and abort composition, so every document the
source actually composes carries string contents; the model keeps the
function total over strings. -/
def createZPLText (x y : Nat) (text : String) (fontHeight fontWidth : Nat)
    (rotation : String) : Primitive :=
  Primitive.text x y (escapeZPLText text) fontHeight fontWidth rotation

/-- `createZPLBarcode(x, y, height, data, showText)`: emits
`^FO{x},{y}^BY2,3,{height}^BCN,{height},Y,N,N^FD{data}^FS`.  The template
hard-codes `Y` — interpretation line printed — in the `^BC` command; the
`showText` parameter is accepted but never interpolated. -/
def createZPLBarcode (x y height : Nat) (data : String) (showText : String) : Primitive :=
  Primitive.barcode x y height data ("Y")

/-- The payload field that should hold the lab-request array: absent, present
but holding a non-array value, or an actual array. -/
inductive ReqsField where
  | absent
  | notArray (v : JSVal)
  | array (l : List LabRequest)
deriving DecidableEq

/-- Truthiness of such a field; an array — even an empty one — is a truthy
object in JavaScript. -/
def ReqsField.truthy : ReqsField → Bool
  | .absent => false
  | .notArray v => v.truthy
  | .array _ => true

/-- `a || b` on lab-request fields. -/
def rOr (a b : ReqsField) : ReqsField := if a.truthy then a else b

/-- The list a field contributes after the `Array.isArray` guard: its
elements when it is an array, nothing otherwise. -/
def ReqsField.toList : ReqsField → List LabRequest
  | .array l => l
  | _ => []

/-- The nested `patient` record of the payload, with the fields the source
reads from it. -/
structure PatientRec where
  name : JSVal
  visit_number : JSVal
  id : JSVal
  lab_requests : ReqsField
  labRequests : ReqsField
deriving DecidableEq

/-- The inbound payload (`patientObj`), with the fields the source reads. -/
structure PatientObj where
  patient : Option PatientRec
  name : JSVal
  visit_number : JSVal
  visit_id : JSVal
  id : JSVal
  patient_id : JSVal
  lab_requests : ReqsField
  labRequests : ReqsField
deriving DecidableEq

/-- `const patient = patientObj.patient || patientObj`: the nested record
when present, otherwise the flat payload read through the same field
names. -/
def patientRecOf (po : PatientObj) : PatientRec :=
  match po.patient with
  | some pr => pr
  | none =>
    { name := po.name
      visit_number := po.visit_number
      id := po.id
      lab_requests := po.lab_requests
      labRequests := po.labRequests }

/-- `const visitNo = patient.visit_number || patientObj.visit_number || patientObj.visit_id`. -/
def resolveVisitNo (po : PatientObj) : JSVal :=
  jsOr (patientRecOf po).visit_number (jsOr po.visit_number po.visit_id)

/-- `const pid = patientObj.id || patientObj.patient_id || patient.id`. -/
def resolvePid (po : PatientObj) : JSVal :=
  jsOr po.id (jsOr po.patient_id (patientRecOf po).id)

/-- `const labRequests = patientObj.lab_requests || patient.lab_requests ||
patientObj.labRequests || patient.labRequests || []`. -/
def resolveLabRequests (po : PatientObj) : ReqsField :=
  rOr po.lab_requests (rOr (patientRecOf po).lab_requests
    (rOr po.labRequests (rOr (patientRecOf po).labRequests (ReqsField.array []))))

/-- Element stringification of `Array.prototype.join`: `null` and
`undefined` join as the empty string, other values as their `String(..)`
form. -/
def jsJoinStr (v : JSVal) : String :=
  match v with
  | .undef => ("")
  | .null => ("")
  | _ => jsToString v

/-- A composed label document: the global page-setup directives followed by
the ordered drawing primitives. -/
structure LabelDocument where
  setup : List String
  primitives : List Primitive
deriving DecidableEq

/-- The page-setup directives `^XA ^MMT ^PW508 ^LL312 ^LH0,0 ^PRC ^MD15 ^BY2`
prepended to every label. -/
def pageSetup : List String :=
  [("^XA"), ("^MMT"), ("^PW508"), ("^LL312"), ("^LH0,0"), ("^PRC"), ("^MD15"), ("^BY2")]

/-- The per-line text primitives of the `lines.forEach((line, i) => ...)`
loop: one `createZPLText` at `textY + i * 25` per chunk — `i` being the
chunk's original index, so skipped lines leave a vertical gap — with chunks
that are empty after trimming skipped (`if (line.trim())`). -/
def lineTextPrimitives (textY : Nat) (lines : List String) : List Primitive :=
  lines.enum.filterMap (fun p =>
    if jsTrim p.2 == ("") then none
    else some (createZPLText 20 (textY + p.1 * 25) (jsTrim p.2) 25 20 ("N")))

/-- The optional final container-name primitive:
`const containerName = container.container_name || container.name;
if (containerName) zpl += createZPLText(20, textY + lines.length * 25 + 10,
"Container: " + containerName, 20, 18, "N")`. -/
def containerTailPrimitives (textY : Nat) (linesLen : Nat) (container : Container) :
    List Primitive :=
  let containerName := jsOr container.container_name container.name
  if containerName.truthy then
    [createZPLText 20 (textY + linesLen * 25 + 10)
      (("Container: ") ++ jsToString containerName) 20 18 ("N")]
  else []

/-- The body of the `uniqueContainers.forEach(container => ...)` callback of
`usePrinter`: the ZPL document composed for one container group — page
setup, bounding box, visit-number text (`visitNo || "N/A"`), Code-128
barcode encoding `String(pid || visitNo || "0")`, one text line per
25-character chunk of the `" - "`-joined test names, and the optional
container-name footer. -/
def composeDoc (visitNo pid : JSVal) (labRequests : List LabRequest)
    (container : Container) : LabelDocument :=
  let testNames := testsAccordingToContainer labRequests container
  let tests := String.intercalate (" - ") (testNames.map jsJoinStr)
  let lines := splitText tests 25
  let barcodeData := jsToString (jsOr pid (jsOr visitNo (JSVal.str ("0"))))
  let textY := 150
  { setup := pageSetup
    primitives :=
      [createZPLBox 10 5 488 302 2,
        createZPLText 20 15 (jsToString (jsOr visitNo (JSVal.str ("N/A")))) 40 30 ("N"),
        createZPLBarcode 200 60 80 barcodeData ("Y")]
      ++ lineTextPrimitives textY lines
      ++ containerTailPrimitives textY lines.length container }

/-- The documents composed by one `usePrinter` call: none when the resolved
lab-request field is not an array or is empty
(`!Array.isArray(labRequests) || labRequests.length === 0`), none when no
valid container remains, otherwise one document per deduplicated container.
Printer-name resolution and the `printDirect` submissions are side-effecting
collaborators outside the model. -/
def usePrinterDocs (po : PatientObj) : List LabelDocument :=
  match resolveLabRequests po with
  | ReqsField.array labRequests =>
    if labRequests.isEmpty then []
    else
      let unique := uniqueContainers (containers labRequests)
      if unique.isEmpty then []
      else unique.map (fun container =>
        composeDoc (resolveVisitNo po) (resolvePid po) labRequests container)
  | _ => []

/-- An HTTP response: the status code and the `message` field of the JSON
body. -/
structure HttpResponse where
  status : Nat
  message : String
deriving DecidableEq

/-- The `app.post("/")` handler: 400 when the request body is missing or
falsy, otherwise it starts printing asynchronously and immediately answers
200 success — regardless of what `printLabel` finds in the payload.  The
composed documents are paired with the response for specification
purposes. -/
def handlePost (body : Option PatientObj) : HttpResponse × List LabelDocument :=
  match body with
  | none => ({ status := 400, message := ("No data received") }, [])
  | some po =>
    ({ status := 200, message := ("Print job(s) sent to printer") }, usePrinterDocs po)

theorem mem_usePrinterDocs {po : PatientObj} {doc : LabelDocument}
    (hdoc : doc ∈ usePrinterDocs po) :
    ∃ labRequests g, resolveLabRequests po = ReqsField.array labRequests
      ∧ g ∈ uniqueContainers (containers labRequests)
      ∧ doc = composeDoc (resolveVisitNo po) (resolvePid po) labRequests g := by
  rw [usePrinterDocs] at hdoc
  cases hlr : resolveLabRequests po with
  | absent => rw [hlr] at hdoc; simp at hdoc
  | notArray v => rw [hlr] at hdoc; simp at hdoc
  | array labRequests =>
    rw [hlr] at hdoc
    simp only [] at hdoc
    by_cases he : labRequests.isEmpty = true
    · rw [if_pos he] at hdoc; simp at hdoc
    · rw [if_neg he] at hdoc
      by_cases hu : (uniqueContainers (containers labRequests)).isEmpty = true
      · rw [if_pos hu] at hdoc; simp at hdoc
      · rw [if_neg hu] at hdoc
        obtain ⟨g, hg, hgeq⟩ := List.mem_map.mp hdoc
        exact ⟨labRequests, g, rfl, hg, hgeq.symm⟩

theorem getLast?_cons_append_singleton {α : Type} (a b c : α) (l : List α) (t : α) :
    (a :: b :: c :: (l ++ [t])).getLast? = some t := by
  have h : a :: b :: c :: (l ++ [t]) = (a :: b :: c :: l) ++ [t] := by simp
  rw [h, List.getLast?_concat]

/-- Amended claim C5: the barcode primitive of every composed document
encodes the identifier chosen by truthiness priority — the resolved patient
id when truthy, else the resolved visit number when truthy, else the literal
`"0"` — and the human-readable interpretation line is enabled. -/
theorem barcode_truthy_priority (po : PatientObj) (doc : LabelDocument)
    (hdoc : doc ∈ usePrinterDocs po) :
    doc.primitives[2]?
      = some (Primitive.barcode 200 60 80
          (jsToString (jsOr (resolvePid po)
            (jsOr (resolveVisitNo po) (JSVal.str ("0"))))) ("Y")) := by
  obtain ⟨labRequests, g, hlr, hg, hdeq⟩ := mem_usePrinterDocs hdoc
  subst hdeq
  simp [composeDoc, createZPLBox, createZPLText, createZPLBarcode]

/-- Spec claim C6: composition is total over the payload model (it never
raises on missing optional fields: the embedding is a total function), and
when the resolved visit number is null or absent the top text primitive
carries the literal fallback `"N/A"`. -/
theorem visit_fallback (po : PatientObj)
    (hv : resolveVisitNo po = JSVal.null ∨ resolveVisitNo po = JSVal.undef)
    (doc : LabelDocument) (hdoc : doc ∈ usePrinterDocs po) :
    doc.primitives[1]? = some (Primitive.text 20 15 ("N/A") 40 30 ("N")) := by
  obtain ⟨labRequests, g, hlr, hg, hdeq⟩ := mem_usePrinterDocs hdoc
  subst hdeq
  have hor : jsOr (resolveVisitNo po) (JSVal.str ("N/A")) = JSVal.str ("N/A") := by
    rcases hv with h | h <;> rw [h] <;> rfl
  simp [composeDoc, hor, createZPLBox, createZPLText, createZPLBarcode]
  decide

/-- Spec claim C7: every composed document's primitive sequence starts with
the bounding box, then the visit-number text, then the barcode; the
test-name text lines (blank-after-trim chunks skipped, original chunk order
kept — see `lineTextPrimitives`) follow the barcode, and when the container
has a truthy display name the container-name text primitive is the last
primitive of the document. -/
theorem document_primitive_order (po : PatientObj) (doc : LabelDocument)
    (hdoc : doc ∈ usePrinterDocs po) :
    ∃ labRequests g lines,
      resolveLabRequests po = ReqsField.array labRequests
      ∧ g ∈ uniqueContainers (containers labRequests)
      ∧ lines = splitText (String.intercalate (" - ")
          ((testsAccordingToContainer labRequests g).map jsJoinStr)) 25
      ∧ doc.primitives
          = createZPLBox 10 5 488 302 2
            :: createZPLText 20 15
                (jsToString (jsOr (resolveVisitNo po) (JSVal.str ("N/A")))) 40 30 ("N")
            :: createZPLBarcode 200 60 80
                (jsToString (jsOr (resolvePid po)
                  (jsOr (resolveVisitNo po) (JSVal.str ("0"))))) ("Y")
            :: (lineTextPrimitives 150 lines ++ containerTailPrimitives 150 lines.length g)
      ∧ ((jsOr g.container_name g.name).truthy = true →
          doc.primitives.getLast?
            = some (createZPLText 20 (150 + lines.length * 25 + 10)
                (("Container: ") ++ jsToString (jsOr g.container_name g.name)) 20 18 ("N")))
      ∧ ((jsOr g.container_name g.name).truthy = false →
          containerTailPrimitives 150 lines.length g = []) := by
  obtain ⟨labRequests, g, hlr, hg, hdeq⟩ := mem_usePrinterDocs hdoc
  subst hdeq
  refine ⟨labRequests, g,
    splitText (String.intercalate (" - ")
      ((testsAccordingToContainer labRequests g).map jsJoinStr)) 25,
    hlr, hg, rfl, ?_, ?_, ?_⟩
  · simp [composeDoc]
  · intro ht
    have htail : containerTailPrimitives 150
        (splitText (String.intercalate (" - ")
          ((testsAccordingToContainer labRequests g).map jsJoinStr)) 25).length g
        = [createZPLText 20
            (150 + (splitText (String.intercalate (" - ")
              ((testsAccordingToContainer labRequests g).map jsJoinStr)) 25).length * 25 + 10)
            (("Container: ") ++ jsToString (jsOr g.container_name g.name)) 20 18 ("N")] := by
      simp [containerTailPrimitives, ht]
    have hp : (composeDoc (resolveVisitNo po) (resolvePid po) labRequests g).primitives
        = createZPLBox 10 5 488 302 2
          :: createZPLText 20 15
              (jsToString (jsOr (resolveVisitNo po) (JSVal.str ("N/A")))) 40 30 ("N")
          :: createZPLBarcode 200 60 80
              (jsToString (jsOr (resolvePid po)
                (jsOr (resolveVisitNo po) (JSVal.str ("0"))))) ("Y")
          :: (lineTextPrimitives 150
                (splitText (String.intercalate (" - ")
                  ((testsAccordingToContainer labRequests g).map jsJoinStr)) 25)
              ++ containerTailPrimitives 150
                  (splitText (String.intercalate (" - ")
                    ((testsAccordingToContainer labRequests g).map jsJoinStr)) 25).length g) := by
      simp [composeDoc]
    rw [hp, htail]
    exact getLast?_cons_append_singleton _ _ _ _ _
  · intro hf
    simp [containerTailPrimitives, hf]

/-- Spec claim C8: when no lab request resolves a truthy container id,
grouping is empty, no document is composed, and the HTTP caller still
receives the 200 success acknowledgment (a no-op, not an error). -/
theorem no_valid_containers_noop (po : PatientObj)
    (h : containers (resolveLabRequests po).toList = []) :
    usePrinterDocs po = []
    ∧ handlePost (some po)
        = ({ status := 200, message := ("Print job(s) sent to printer") }, []) := by
  have hd : usePrinterDocs po = [] := by
    rw [usePrinterDocs]
    cases hlr : resolveLabRequests po with
    | absent => rfl
    | notArray v => rfl
    | array labRequests =>
      rw [hlr] at h
      simp only [ReqsField.toList] at h
      simp [h, uniqueContainers, filterWithIndex]
  exact ⟨hd, by simp [handlePost, hd]⟩

/-- Amended claim C9: a payload whose resolved lab-request field is missing
or not a sequence yields no documents, but the condition is only logged
server-side — the HTTP response is 200 success, not a client error (only a
missing request body produces a 400). -/
theorem missing_requests_no_docs (po : PatientObj)
    (h : (resolveLabRequests po).toList = []) :
    usePrinterDocs po = [] ∧ (handlePost (some po)).1.status = 200 := by
  have hd : usePrinterDocs po = [] := by
    rw [usePrinterDocs]
    cases hlr : resolveLabRequests po with
    | absent => rfl
    | notArray v => rfl
    | array labRequests =>
      rw [hlr] at h
      simp only [ReqsField.toList] at h
      subst h
      rfl
  exact ⟨hd, rfl⟩

/-- Scenario payload: nested patient with visit `"V100"`, top-level patient
id `"P1"`, two requests sharing container id 7. -/
def prSample : PatientRec :=
  { name := JSVal.str ("Jane Doe")
    visit_number := JSVal.str ("V100")
    id := JSVal.undef
    lab_requests := ReqsField.absent
    labRequests := ReqsField.absent }

def poSample : PatientObj :=
  { patient := some prSample
    name := JSVal.undef
    visit_number := JSVal.undef
    visit_id := JSVal.undef
    id := JSVal.str ("P1")
    patient_id := JSVal.undef
    lab_requests := ReqsField.array [reqCBC, reqHBA1C]
    labRequests := ReqsField.absent }

/-- The document the pipeline composes for the sample payload's only
container group. -/
def docSample : LabelDocument :=
  composeDoc (resolveVisitNo poSample) (resolvePid poSample) [reqCBC, reqHBA1C] containerCBC

/-- A payload whose patient id is present but equal to the falsy number 0,
with a truthy visit number. -/
def poZeroPid : PatientObj :=
  { patient := none
    name := JSVal.str ("Jane Doe")
    visit_number := JSVal.str ("V100")
    visit_id := JSVal.undef
    id := JSVal.num 0
    patient_id := JSVal.undef
    lab_requests := ReqsField.array [reqCBC]
    labRequests := ReqsField.absent }

def docZeroPid : LabelDocument :=
  composeDoc (resolveVisitNo poZeroPid) (resolvePid poZeroPid) [reqCBC] containerCBC

/-- A payload with no truthy visit-number alias: `visit_number` is null and
the other aliases are absent. -/
def poNoVisit : PatientObj :=
  { patient := none
    name := JSVal.undef
    visit_number := JSVal.null
    visit_id := JSVal.undef
    id := JSVal.str ("P1")
    patient_id := JSVal.undef
    lab_requests := ReqsField.array [reqCBC]
    labRequests := ReqsField.absent }

def docNoVisit : LabelDocument :=
  composeDoc (resolveVisitNo poNoVisit) (resolvePid poNoVisit) [reqCBC] containerCBC

/-- A payload whose only lab request resolves a container with the falsy
id 0, so no valid container remains. -/
def poOnlyZero : PatientObj :=
  { patient := none
    name := JSVal.undef
    visit_number := JSVal.str ("V7")
    visit_id := JSVal.undef
    id := JSVal.str ("P7")
    patient_id := JSVal.undef
    lab_requests := ReqsField.array [reqZeroId]
    labRequests := ReqsField.absent }

/-- A payload with no lab-request field anywhere. -/
def poNoReqs : PatientObj :=
  { patient := none
    name := JSVal.undef
    visit_number := JSVal.undef
    visit_id := JSVal.undef
    id := JSVal.str ("P9")
    patient_id := JSVal.undef
    lab_requests := ReqsField.absent
    labRequests := ReqsField.absent }

/-- Counterexample to claim C5 as stated: in `poZeroPid` the patient id is
present (the number 0, whose `String(..)` form is `"0"`), yet the composed
barcode encodes the visit number `"V100"` — the source selects by truthiness
(`pid || visitNo || "0"`), not by presence. -/
theorem barcode_presence_counterexample :
    (usePrinterDocs poZeroPid).map (fun doc => doc.primitives[2]?)
      = [some (Primitive.barcode 200 60 80 ("V100") ("Y"))]
    ∧ (("V100") : String) ≠ ("0") := by decide

/-- Witness for `barcode_truthy_priority` on the zero-id payload. -/
theorem barcode_truthy_priority_witness :
    docZeroPid ∈ usePrinterDocs poZeroPid
    ∧ docZeroPid.primitives[2]?
        = some (Primitive.barcode 200 60 80
            (jsToString (jsOr (resolvePid poZeroPid)
              (jsOr (resolveVisitNo poZeroPid) (JSVal.str ("0"))))) ("Y")) :=
  ⟨by decide, barcode_truthy_priority poZeroPid docZeroPid (by decide)⟩

/-- Witness for `visit_fallback` on the payload without a visit number. -/
theorem visit_fallback_witness :
    ((resolveVisitNo poNoVisit = JSVal.null ∨ resolveVisitNo poNoVisit = JSVal.undef)
      ∧ docNoVisit ∈ usePrinterDocs poNoVisit)
    ∧ docNoVisit.primitives[1]? = some (Primitive.text 20 15 ("N/A") 40 30 ("N")) :=
  ⟨⟨by decide, by decide⟩, visit_fallback poNoVisit (by decide) docNoVisit (by decide)⟩

/-- Witness for `document_primitive_order` on the scenario payload. -/
theorem document_primitive_order_witness :
    docSample ∈ usePrinterDocs poSample
    ∧ (∃ labRequests g lines,
        resolveLabRequests poSample = ReqsField.array labRequests
        ∧ g ∈ uniqueContainers (containers labRequests)
        ∧ lines = splitText (String.intercalate (" - ")
            ((testsAccordingToContainer labRequests g).map jsJoinStr)) 25
        ∧ docSample.primitives
            = createZPLBox 10 5 488 302 2
              :: createZPLText 20 15
                  (jsToString (jsOr (resolveVisitNo poSample) (JSVal.str ("N/A")))) 40 30 ("N")
              :: createZPLBarcode 200 60 80
                  (jsToString (jsOr (resolvePid poSample)
                    (jsOr (resolveVisitNo poSample) (JSVal.str ("0"))))) ("Y")
              :: (lineTextPrimitives 150 lines ++ containerTailPrimitives 150 lines.length g)
        ∧ ((jsOr g.container_name g.name).truthy = true →
            docSample.primitives.getLast?
              = some (createZPLText 20 (150 + lines.length * 25 + 10)
                  (("Container: ") ++ jsToString (jsOr g.container_name g.name)) 20 18 ("N")))
        ∧ ((jsOr g.container_name g.name).truthy = false →
            containerTailPrimitives 150 lines.length g = [])) :=
  ⟨by decide, document_primitive_order poSample docSample (by decide)⟩

/-- Witness for `no_valid_containers_noop` on the id-0-only payload. -/
theorem no_valid_containers_noop_witness :
    containers (resolveLabRequests poOnlyZero).toList = []
    ∧ (usePrinterDocs poOnlyZero = []
       ∧ handlePost (some poOnlyZero)
          = ({ status := 200, message := ("Print job(s) sent to printer") }, [])) :=
  ⟨by decide, no_valid_containers_noop poOnlyZero (by decide)⟩

/-- Counterexample to claim C9 as stated: the payload `poNoReqs` has no
test-request list anywhere, yet the handler answers 200 success (with zero
documents), not a 4xx client error. -/
theorem missing_requests_counterexample :
    (handlePost (some poNoReqs)).2 = []
    ∧ (handlePost (some poNoReqs)).1.status = 200
    ∧ (200 : Nat) ≠ 400 := by decide

/-- Witness for `missing_requests_no_docs` on the request-less payload. -/
theorem missing_requests_no_docs_witness :
    (resolveLabRequests poNoReqs).toList = []
    ∧ (usePrinterDocs poNoReqs = [] ∧ (handlePost (some poNoReqs)).1.status = 200) :=
  ⟨by decide, missing_requests_no_docs poNoReqs (by decide)⟩

end Zebra
